import Mathlib

/-!
Shallow embedding of the matching-outcome aggregation and scoring engine of
`autoware_perception_evaluation`:

* `awml_evaluation/evaluation/metrics/detection/map.py` — `Ap`, `Map`, `MapConfig`
* `awml_evaluation/evaluation/metrics/metrics.py` — `MetricsScore`
* `perception_eval/evaluation/result/perception_pass_fail_result.py` — `PassFailResult`

Python floats are embedded as `ℚ` (all scenario inputs are exact dyadic
rationals, where float arithmetic is exact); machine lists become `List`;
code that can raise (an out-of-bounds index) returns `Option`.
External collaborators that are not part of the repository sources
(`filter_tp_objects`, `filter_ground_truth_objects`, `divide_tp_fp_objects`)
are modelled from the spec, and are marked as such in their doc comments.
-/

/-- Enum `MatchingMode` from `object_matching.py` (constructor names follow the
Python enum members used in `metrics.py`). -/
inductive MatchingMode where
  | CENTERDISTANCE
  | IOU3d
  | PLANEDISTANCE
deriving DecidableEq, Repr

/-- A ground-truth annotation (`DynamicObject`): only its label is read by the
scoring core; labels are embedded as `Nat` tags. -/
structure DynamicObject where
  label : Nat
deriving DecidableEq, Repr

/-- A prediction paired with its best ground-truth match
(`DynamicObjectWithResult`): the scoring core reads the predicted label, the
confidence, the matching value under the mode in use, and the
`is_label_correct` flag computed by the external matcher. -/
structure DynamicObjectWithResult where
  label : Nat
  confidence : ℚ
  matchingValue : ℚ
  is_label_correct : Bool
deriving DecidableEq, Repr

/-- Modelled from the spec: the threshold test of a matching mode —
"`≤ threshold` = match" for the distance-like modes (center distance, plane
distance) and "`≥ threshold` = match" for the overlap-like mode (3D IoU). -/
def passesMatching (mode : MatchingMode) (value threshold : ℚ) : Bool :=
  match mode with
  | MatchingMode.IOU3d => threshold ≤ value
  | _ => value ≤ threshold

/-- Modelled from the spec: `filter_tp_objects` (in
`objects_filter.py`, not under the given sources) keeps the match records
whose predicted object's label is in the target label set and whose match
passes the mode+threshold test, preserving order. -/
def filter_tp_objects (object_results : List DynamicObjectWithResult)
    (target_labels : List Nat) (matching_mode : MatchingMode)
    (matching_threshold : ℚ) : List DynamicObjectWithResult :=
  object_results.filter fun r =>
    decide (r.label ∈ target_labels) &&
      passesMatching matching_mode r.matchingValue matching_threshold

/-- Modelled from the spec: `filter_ground_truth_objects` (in
`objects_filter.py`, not under the given sources) keeps the ground-truth
objects whose label is in the target label set. -/
def filter_ground_truth_objects (objects : List DynamicObject)
    (target_labels : List Nat) : List DynamicObject :=
  objects.filter fun o => decide (o.label ∈ target_labels)

/-- The running true-positive counter of `Ap._calculate_tp_fp` (`map.py`):
starting from `acc`, each record appends the updated cumulative count of
records whose `is_label_correct` flag is true. -/
def tpAccum (acc : Nat) : List DynamicObjectWithResult → List Nat
  | [] => []
  | r :: rest =>
    let acc' := acc + (if r.is_label_correct then 1 else 0)
    acc' :: tpAccum acc' rest

/-- Embeds `Ap._calculate_tp_fp` (`map.py` lines 233–280).  Returns `none` exactly
when the Python code raises: with an empty record list and
`ground_truth_objects_num = 0` the guard on line 258 does not fire and line
266 evaluates `object_results[0]`, an `IndexError`.  Otherwise
`tp_list[0]` is `1` or `0` from the `is_label_correct` flag, each later
`tp_list[i]` adds `1` when record `i` is label-correct, and
`fp_list[i] = i + 1 - tp_list[i]` (also at index `0`, where the code sets
`fp_list[0]` to `1 - tp_list[0]` directly). -/
def calculate_tp_fp (object_results : List DynamicObjectWithResult)
    (ground_truth_objects_num : Nat) : Option (List Nat × List Nat) :=
  if object_results.length = 0 ∧ ground_truth_objects_num ≠ 0 then
    some ([], [])
  else
    match object_results with
    | [] => none
    | _ :: _ =>
      let tp_list := tpAccum 0 object_results
      let fp_list := (List.range object_results.length).map fun i =>
        i + 1 - tp_list.getD i 0
      some (tp_list, fp_list)

/-- Embeds `Ap.get_precision_recall_list` (`map.py` lines 204–231):
`precision[i] = tp[i] / (i + 1)` always, and
`recall[i] = tp[i] / ground_truth_objects_num` when the ground-truth count
is positive, `0.0` otherwise. -/
def get_precision_recall_list (tp_list : List Nat)
    (ground_truth_objects_num : Nat) : List ℚ × List ℚ :=
  ((List.range tp_list.length).map fun i => (tp_list.getD i 0 : ℚ) / (i + 1),
   (List.range tp_list.length).map fun i =>
     if ground_truth_objects_num > 0 then
       (tp_list.getD i 0 : ℚ) / ground_truth_objects_num
     else 0)

/-- The backward envelope loop of `Ap._calculate_ap` (`map.py` lines
315–318): `envLoop p r k (mp, mr)` walks indices `k-1, k-2, …, 0`, appending
`p[i]` and `r[i]` whenever `p[i]` exceeds the last envelope entry. -/
def envLoop (p r : List ℚ) : Nat → List ℚ × List ℚ → List ℚ × List ℚ
  | 0, env => env
  | k + 1, (mp, mr) =>
    if p.getD k 0 > mp.getLastD 0 then
      envLoop p r k (mp ++ [p.getD k 0], mr ++ [r.getD k 0])
    else
      envLoop p r k (mp, mr)

/-- The closing Riemann sum of `Ap._calculate_ap` (`map.py` lines 324–329):
`Σ_i mp[i] * (mr[i] - mr[i+1])` over consecutive envelope entries. -/
def sumPairs (mp mr : List ℚ) : ℚ :=
  (((List.range (mp.length - 1)).map fun i =>
    mp.getD i 0 * (mr.getD i 0 - mr.getD (i + 1) 0))).sum

/-- Embeds `Ap._calculate_ap` (`map.py` lines 282–331): `0.0` for an empty precision
list; otherwise seed the envelope with the last precision/recall sample, run
the backward walk over indices `len(recall) - 2 … 0`, append the final
anchor point (last envelope precision at recall `0.0`), and integrate. -/
def calculate_ap (precision_list recall_list : List ℚ) : ℚ :=
  if precision_list.length = 0 then 0
  else
    let env := envLoop precision_list recall_list (recall_list.length - 1)
      ([precision_list.getLastD 0], [recall_list.getLastD 0])
    let mp := env.1 ++ [env.1.getLastD 0]
    let mr := env.2 ++ [0]
    sumPairs mp mr

/-- The stored fields of one `Ap` object (`map.py` lines 104–173). -/
structure ApData where
  target_labels : List Nat
  matching_mode : MatchingMode
  matching_threshold : ℚ
  ground_truth_objects_num : Nat
  tp_list : List Nat
  fp_list : List Nat
  ap : ℚ
deriving DecidableEq, Repr

/-- Embeds `Ap.__init__` (`map.py` lines 122–173): filter the match records by label
and threshold, count the label-filtered ground truths, run the TP/FP
accumulation (propagating its possible `IndexError` as `none`), derive the
precision/recall lists and the final AP value. -/
def mkAp (object_results : List DynamicObjectWithResult)
    (ground_truth_objects : List DynamicObject) (target_labels : List Nat)
    (matching_mode : MatchingMode) (matching_threshold : ℚ) : Option ApData :=
  let filtered_object_results :=
    filter_tp_objects object_results target_labels matching_mode
      matching_threshold
  let filtered_ground_truth_objects :=
    filter_ground_truth_objects ground_truth_objects target_labels
  let ground_truth_objects_num := filtered_ground_truth_objects.length
  match calculate_tp_fp filtered_object_results ground_truth_objects_num with
  | none => none
  | some (tp_list, fp_list) =>
    let pr := get_precision_recall_list tp_list ground_truth_objects_num
    some
      { target_labels := target_labels
        matching_mode := matching_mode
        matching_threshold := matching_threshold
        ground_truth_objects_num := ground_truth_objects_num
        tp_list := tp_list
        fp_list := fp_list
        ap := calculate_ap pr.1 pr.2 }

/-- Embeds `MapConfig` (`map.py` lines 16–45). -/
structure MapConfig where
  target_labels : List Nat
  matching_mode : MatchingMode
  matching_threshold : ℚ
deriving DecidableEq, Repr

/-- The observable outcome of `Map.__init__` (`map.py` lines 58–101): with an
empty target-label list the constructor logs a warning and returns before
setting `aps` or `map` (`empty`); otherwise it stores one `Ap` per target
label and the arithmetic mean of their AP values (`built`). -/
inductive MapOutcome where
  | empty
  | built (map_config : MapConfig) (aps : List ApData) (map : ℚ)
deriving DecidableEq, Repr

/-- Embeds `Map.__init__` (`map.py` lines 58–101): short-circuit on an empty target
label list; otherwise build one `Ap` per label (each with the one-label
target set) and divide the sum of their APs by the number of target labels.
`none` propagates an `IndexError` raised inside an `Ap` construction. -/
def mkMap (object_results : List DynamicObjectWithResult)
    (ground_truth_objects : List DynamicObject) (target_labels : List Nat)
    (matching_mode : MatchingMode) (matching_threshold : ℚ) :
    Option MapOutcome :=
  if target_labels = [] then some MapOutcome.empty
  else
    match target_labels.mapM fun target_label =>
        mkAp object_results ground_truth_objects [target_label] matching_mode
          matching_threshold with
    | none => none
    | some aps =>
      some (MapOutcome.built
        ⟨target_labels, matching_mode, matching_threshold⟩ aps
        ((aps.map ApData.ap).sum / target_labels.length))

/-- The configuration fields of `MetricsScoreConfig` read by
`MetricsScore._evaluation_detection` (`metrics.py`): the target labels and
the three per-mode threshold lists. -/
structure MetricsScoreConfig where
  target_labels : List Nat
  map_thresholds_center_distance : List ℚ
  map_thresholds_iou : List ℚ
  map_thresholds_plane_distance : List ℚ
deriving DecidableEq, Repr

/-- The (matching mode, threshold) pairs for which
`MetricsScore._evaluation_detection` (`metrics.py` lines 69–110) constructs a
`Map`, in construction order.  Each block is guarded by the truthiness test
of the source: note that the plane-distance block (line 101) is guarded by
`map_thresholds_center_distance`, not by `map_thresholds_plane_distance`,
exactly as in the source. -/
def detectionPairs (config : MetricsScoreConfig) : List (MatchingMode × ℚ) :=
  (if config.map_thresholds_center_distance ≠ [] then
    config.map_thresholds_center_distance.map fun t =>
      (MatchingMode.CENTERDISTANCE, t)
  else []) ++
  (if config.map_thresholds_iou ≠ [] then
    config.map_thresholds_iou.map fun t => (MatchingMode.IOU3d, t)
  else []) ++
  (if config.map_thresholds_center_distance ≠ [] then
    config.map_thresholds_plane_distance.map fun t =>
      (MatchingMode.PLANEDISTANCE, t)
  else [])

/-- Modelled from the spec: the (matching mode, threshold) pairs the
orchestrator is specified to score — "one `MeanAveragePrecision` per (mode,
threshold) pair actually configured", each mode's block depending only on
its own threshold list. -/
def specConfiguredPairs (config : MetricsScoreConfig) :
    List (MatchingMode × ℚ) :=
  config.map_thresholds_center_distance.map
    (fun t => (MatchingMode.CENTERDISTANCE, t)) ++
  config.map_thresholds_iou.map (fun t => (MatchingMode.IOU3d, t)) ++
  config.map_thresholds_plane_distance.map
    (fun t => (MatchingMode.PLANEDISTANCE, t))

/-- Embeds `MetricsScore._evaluation_detection` (`metrics.py` lines 69–110): one
`Map` construction per detection pair; `none` propagates an exception raised
by any `Map` construction. -/
def evaluation_detection (config : MetricsScoreConfig)
    (object_results : List DynamicObjectWithResult)
    (ground_truth_objects : List DynamicObject) : Option (List MapOutcome) :=
  (detectionPairs config).mapM fun pair =>
    mkMap object_results ground_truth_objects config.target_labels pair.1
      pair.2

/-- The state of a `MetricsScore` object (`metrics.py` lines 10–30): its
configuration and the accumulated list of `Map` results. -/
structure MetricsScore where
  config : MetricsScoreConfig
  maps : List MapOutcome
deriving DecidableEq, Repr

/-- Embeds `MetricsScore.evaluate` (`metrics.py` lines 53–67): runs the detection
evaluation, appending each constructed `Map` to `self.maps`; the tracking and
prediction passes are no-ops.  `none` propagates an exception raised inside
a `Map` construction. -/
def MetricsScore.evaluate (s : MetricsScore)
    (object_results : List DynamicObjectWithResult)
    (ground_truth_objects : List DynamicObject) : Option MetricsScore :=
  match evaluation_detection s.config object_results ground_truth_objects with
  | none => none
  | some new_maps => some ⟨s.config, s.maps ++ new_maps⟩

/-- Runs `k` successive calls of `MetricsScore.evaluate` on the same inputs,
propagating any exception. -/
def MetricsScore.evaluateK (s : MetricsScore)
    (object_results : List DynamicObjectWithResult)
    (ground_truth_objects : List DynamicObject) : Nat → Option MetricsScore
  | 0 => some s
  | k + 1 =>
    match s.evaluate object_results ground_truth_objects with
    | none => none
    | some s' => s'.evaluateK object_results ground_truth_objects k

/-- A prediction paired with its optional matched ground truth, as consumed
by `PassFailResult` (`perception_pass_fail_result.py`); ground-truth objects
are embedded as `Nat` identities, `none` standing for an unmatched
prediction (`ground_truth_object is None`). -/
structure DynamicObjectWithPerceptionResult where
  label : Nat
  ground_truth_object : Option Nat
  is_label_correct : Bool
deriving DecidableEq, Repr

/-- Modelled from the spec: `divide_tp_fp_objects` (in `objects_filter.py`,
not under the given sources) splits the match records into the TP list and
the FP list — "a record is TP iff its labelCorrect flag — computed under the
label's configured threshold — is true" — preserving order. -/
def divide_tp_fp_objects (object_results : List DynamicObjectWithPerceptionResult) :
    List DynamicObjectWithPerceptionResult ×
      List DynamicObjectWithPerceptionResult :=
  (object_results.filter fun r => r.is_label_correct,
   object_results.filter fun r => !r.is_label_correct)

/-- Embeds `PassFailResult.get_tp_fp_object_results`
(`perception_pass_fail_result.py` lines 105–141): divide into TP/FP; when
`leave_only_critical_fp` is unset return both unchanged; otherwise keep only
the FP records whose matched ground truth belongs to the (present) critical
ground-truth list. -/
def get_tp_fp_object_results (leave_only_critical_fp : Bool)
    (object_results : List DynamicObjectWithPerceptionResult)
    (critical_ground_truth_objects : Option (List Nat)) :
    List DynamicObjectWithPerceptionResult ×
      List DynamicObjectWithPerceptionResult :=
  let divided := divide_tp_fp_objects object_results
  if !leave_only_critical_fp then divided
  else
    (divided.1,
     divided.2.filter fun fp_object_result =>
       match critical_ground_truth_objects, fp_object_result.ground_truth_object with
       | some critical, some g => decide (g ∈ critical)
       | _, _ => false)

/-- The claim's counting description of the cumulative TP list:
`tp[i]` = number of label-correct records among positions `0 … i`. -/
def specTpList (rs : List DynamicObjectWithResult) : List Nat :=
  (List.range rs.length).map fun i =>
    (rs.take (i + 1)).countP fun r => r.is_label_correct

/-- The claim's description of the cumulative FP list:
`fp[i] = (i + 1) - tp[i]`. -/
def specFpList (rs : List DynamicObjectWithResult) : List Nat :=
  (List.range rs.length).map fun i =>
    i + 1 - (rs.take (i + 1)).countP fun r => r.is_label_correct

/-- A record of the worked scenario: only the confidence and the
label-correctness flag vary; label `0`, matching value `0`. -/
def scenarioRecord (confidence : ℚ) (flag : Bool) : DynamicObjectWithResult :=
  ⟨0, confidence, 0, flag⟩

/-- Scenario 1 of the spec: four records, confidence-descending, with
label-correctness flags `[T, F, T, T]`. -/
def scenario1Records : List DynamicObjectWithResult :=
  [scenarioRecord 1 true, scenarioRecord (3/4) false,
   scenarioRecord (1/2) true, scenarioRecord (1/4) true]

/-- The mAP value stored by a completed `Map` construction, when any. -/
def mapValue : MapOutcome → Option ℚ
  | MapOutcome.empty => none
  | MapOutcome.built _ _ m => some m

/-- Scenario 4 of the spec: the Scenario-1 records for label `0` plus one
label-incorrect record for label `1`; four ground truths, all label `0`
(label `1` has zero ground truth). -/
def scenario4Records : List DynamicObjectWithResult :=
  scenario1Records ++ [⟨1, 1/2, 0, false⟩]

/-- Ground truths of Scenario 4. -/
def scenario4GroundTruths : List DynamicObject := [⟨0⟩, ⟨0⟩, ⟨0⟩, ⟨0⟩]

/-- The two per-label AP results of Scenario 4, as literals. -/
def scenario4Aps : List ApData :=
  [⟨[0], MatchingMode.CENTERDISTANCE, 1, 4, [1, 1, 2, 3], [0, 1, 1, 1], 5/8⟩,
   ⟨[1], MatchingMode.CENTERDISTANCE, 1, 0, [0], [1], 0⟩]

/-- The single `Map` result each `evaluate` call produces in the witness
configuration (one center-distance threshold, one target label, no
predictions, one ground truth). -/
def witnessNewMaps : List MapOutcome :=
  [MapOutcome.built ⟨[0], MatchingMode.CENTERDISTANCE, 1⟩
    [⟨[0], MatchingMode.CENTERDISTANCE, 1, 1, [], [], 0⟩] 0]

/-- The claim's wording of the envelope walk: process the samples from the
second-to-last index down to `0` (here given as an already-reversed pair
list), appending a sample whenever its precision exceeds the current
envelope maximum. -/
def specWalk : List (ℚ × ℚ) → ℚ → List (ℚ × ℚ) → List (ℚ × ℚ)
  | [], _, env => env
  | sample :: rest, cur, env =>
    if sample.1 > cur then specWalk rest sample.1 (env ++ [sample])
    else specWalk rest cur env

/-- The claim's wording of the interpolated-precision envelope: start from
the last precision/recall sample, walk backwards keeping the running
maximum, then append the last envelope precision at recall `0`. -/
def specEnvelope (p r : List ℚ) : List (ℚ × ℚ) :=
  match (p.zip r).getLast? with
  | none => []
  | some last =>
    let env := specWalk ((p.zip r).dropLast.reverse) last.1 [last]
    env ++ [((env.getLastD (0, 0)).1, 0)]

/-- The claim's Riemann sum over consecutive envelope pairs:
`Σ envelope[k] * (envelopeRecall[k] - envelopeRecall[k+1])`. -/
def specRiemann (env : List (ℚ × ℚ)) : ℚ :=
  ((env.zip env.tail).map fun x => x.1.1 * (x.1.2 - x.2.2)).sum

/-! ## Theorems -/

theorem getD_map_range {α : Type} (f : Nat → α) {n i : Nat} (d : α)
    (h : i < n) : (((List.range n).map f).getD i d) = f i := by
  rw [List.getD_eq_getElem?_getD]
  rw [List.getElem?_map]
  rw [List.getElem?_range h]
  rfl

theorem tpAccum_eq (rs : List DynamicObjectWithResult) (acc : Nat) :
    tpAccum acc rs = (List.range rs.length).map
      (fun i => acc + (rs.take (i + 1)).countP fun r => r.is_label_correct) := by
  induction rs generalizing acc with
  | nil => simp [tpAccum]
  | cons r rest ih =>
    simp only [tpAccum, List.length_cons, List.range_succ_eq_map,
      List.map_cons, List.map_map]
    rw [ih]
    congr 1
    case _ => simp [List.countP_cons]
    case _ =>
      refine List.map_congr_left fun i _ => ?_
      simp only [Function.comp_apply, Nat.succ_eq_add_one, List.take_succ_cons,
        List.countP_cons]
      omega

theorem calculate_tp_fp_eq (rs : List DynamicObjectWithResult)
    (ground_truth_objects_num : Nat) (h : rs ≠ []) :
    calculate_tp_fp rs ground_truth_objects_num =
      some (specTpList rs, specFpList rs) := by
  obtain ⟨a, l, rfl⟩ := List.exists_cons_of_ne_nil h
  have htp : tpAccum 0 (a :: l) = specTpList (a :: l) := by
    rw [tpAccum_eq]
    simp [specTpList]
  have hfp : (List.range (a :: l).length).map
      (fun i => i + 1 - (tpAccum 0 (a :: l)).getD i 0) = specFpList (a :: l) := by
    refine List.map_congr_left fun i hi => ?_
    rw [List.mem_range] at hi
    rw [htp]
    unfold specTpList
    rw [getD_map_range _ _ hi]
  unfold calculate_tp_fp
  rw [if_neg (by simp)]
  show some (tpAccum 0 (a :: l), (List.range (a :: l).length).map
    (fun i => i + 1 - (tpAccum 0 (a :: l)).getD i 0)) = _
  rw [hfp, htp]

/-- C3: for every non-empty record list the accumulator returns length-`n`
lists with `tp[i]` the number of label-correct records among positions
`0 … i` and `fp[i] = (i + 1) - tp[i]`; for flags `[T, F, T, T]` it returns
`tp = [1, 1, 2, 3]`, `fp = [0, 1, 1, 1]`. -/
theorem tp_fp_counts_correct (rs : List DynamicObjectWithResult)
    (ground_truth_objects_num : Nat) (h : rs ≠ []) :
    calculate_tp_fp rs ground_truth_objects_num =
      some (specTpList rs, specFpList rs) ∧
    calculate_tp_fp scenario1Records 4 = some ([1, 1, 2, 3], [0, 1, 1, 1]) :=
  ⟨calculate_tp_fp_eq rs ground_truth_objects_num h, by decide⟩

/-- Witness for `tp_fp_counts_correct` at Scenario 1. -/
theorem tp_fp_counts_correct_witness :
    scenario1Records ≠ [] ∧
      (calculate_tp_fp scenario1Records 4 =
          some (specTpList scenario1Records, specFpList scenario1Records) ∧
        calculate_tp_fp scenario1Records 4 =
          some ([1, 1, 2, 3], [0, 1, 1, 1])) :=
  ⟨by decide, tp_fp_counts_correct scenario1Records 4 (by decide)⟩

theorem countP_take_le (p : DynamicObjectWithResult → Bool)
    (l : List DynamicObjectWithResult) (m : Nat) :
    (l.take m).countP p ≤ m :=
  le_trans (List.countP_le_length p) (by simp)

theorem countP_take_step (p : DynamicObjectWithResult → Bool)
    (l : List DynamicObjectWithResult) (m : Nat) :
    (l.take m).countP p ≤ (l.take (m + 1)).countP p ∧
      (l.take (m + 1)).countP p ≤ (l.take m).countP p + 1 := by
  rw [List.take_succ, List.countP_append]
  have hle : (l[m]?.toList).countP p ≤ 1 := by
    cases h : l[m]? with
    | none => simp
    | some a =>
      simp only [Option.toList_some, List.countP_cons, List.countP_nil]
      split <;> omega
  omega

/-- C9: the accumulator's outputs satisfy `tp[i] + fp[i] = i + 1` at every
index (stated as a `zipWith` identity) and `tp` moves by `0` or `1` at each
step (stated as a `Chain'`). -/
theorem tp_fp_invariants (rs : List DynamicObjectWithResult)
    (ground_truth_objects_num : Nat) (h : rs ≠ []) :
    List.zipWith (· + ·)
        ((calculate_tp_fp rs ground_truth_objects_num).getD ([], [])).1
        ((calculate_tp_fp rs ground_truth_objects_num).getD ([], [])).2 =
      (List.range rs.length).map (fun i => i + 1) ∧
    List.Chain' (fun a b => a ≤ b ∧ b ≤ a + 1)
      ((calculate_tp_fp rs ground_truth_objects_num).getD ([], [])).1 := by
  rw [calculate_tp_fp_eq rs ground_truth_objects_num h]
  simp only [Option.getD_some]
  constructor
  case _ =>
    unfold specTpList specFpList
    rw [List.zipWith_map (· + ·) _ _ (List.range rs.length) (List.range rs.length),
      List.zipWith_same]
    refine List.map_congr_left fun i _ => ?_
    have := countP_take_le (fun r => r.is_label_correct) rs (i + 1)
    omega
  case _ =>
    unfold specTpList
    rw [List.chain'_map]
    obtain ⟨a, l, rfl⟩ := List.exists_cons_of_ne_nil h
    rw [List.length_cons, ← Nat.succ_eq_add_one, List.chain'_range_succ]
    intro m _
    exact countP_take_step (fun r => r.is_label_correct) (a :: l) (m + 1)

/-- Witness for `tp_fp_invariants` at Scenario 1. -/
theorem tp_fp_invariants_witness :
    scenario1Records ≠ [] ∧
      (List.zipWith (· + ·)
          ((calculate_tp_fp scenario1Records 4).getD ([], [])).1
          ((calculate_tp_fp scenario1Records 4).getD ([], [])).2 =
        (List.range scenario1Records.length).map (fun i => i + 1) ∧
      List.Chain' (fun a b => a ≤ b ∧ b ≤ a + 1)
        ((calculate_tp_fp scenario1Records 4).getD ([], [])).1) :=
  ⟨by decide, tp_fp_invariants scenario1Records 4 (by decide)⟩

/-- C2: with an empty record list the accumulator returns empty sequences
only when the ground-truth count is nonzero (and the AP over the resulting
empty precision/recall lists is `0`); with ground-truth count `0` the guard
does not fire and the code indexes `object_results[0]`, raising an
`IndexError` — refuting the "regardless of the ground-truth count" claim. -/
theorem tp_fp_empty_records (ground_truth_objects_num : Nat)
    (hn : ground_truth_objects_num ≠ 0) :
    calculate_tp_fp [] 0 = none ∧
      calculate_tp_fp [] ground_truth_objects_num = some ([], []) ∧
      calculate_ap [] [] = 0 := by
  refine ⟨by decide, ?_, by decide⟩
  unfold calculate_tp_fp
  rw [if_pos ⟨rfl, hn⟩]

/-- Witness for `tp_fp_empty_records` at ground-truth count `5`
(Scenario 3 of the spec). -/
theorem tp_fp_empty_records_witness :
    (5 : Nat) ≠ 0 ∧
      (calculate_tp_fp [] 0 = none ∧
        calculate_tp_fp [] 5 = some ([], []) ∧
        calculate_ap [] [] = 0) :=
  ⟨by decide, tp_fp_empty_records 5 (by decide)⟩

/-- C8: the precision/recall computation is total and pointwise equal to
`precision[i] = tp[i] / (i + 1)` and
`recall[i] = tp[i] / totalGroundTruth` guarded by `totalGroundTruth > 0`. -/
theorem precision_recall_values (tp_list : List Nat)
    (ground_truth_objects_num : Nat) (i : Nat) (hi : i < tp_list.length) :
    (get_precision_recall_list tp_list ground_truth_objects_num).1.length =
        tp_list.length ∧
      (get_precision_recall_list tp_list ground_truth_objects_num).2.length =
        tp_list.length ∧
      (get_precision_recall_list tp_list ground_truth_objects_num).1.getD i 0 =
        (tp_list.getD i 0 : ℚ) / (i + 1) ∧
      (get_precision_recall_list tp_list ground_truth_objects_num).2.getD i 0 =
        (if ground_truth_objects_num > 0 then
          (tp_list.getD i 0 : ℚ) / ground_truth_objects_num
        else 0) :=
  ⟨by simp [get_precision_recall_list], by simp [get_precision_recall_list],
    getD_map_range _ _ hi, getD_map_range _ _ hi⟩

/-- Witness for `precision_recall_values`: Scenario 2 values at index `2`,
`tp = [1, 1, 2, 3]`, four ground truths — precision `2/3`, recall `1/2`. -/
theorem precision_recall_values_witness :
    (2 : Nat) < ([1, 1, 2, 3] : List Nat).length ∧
      ((get_precision_recall_list [1, 1, 2, 3] 4).1.length =
          ([1, 1, 2, 3] : List Nat).length ∧
        (get_precision_recall_list [1, 1, 2, 3] 4).2.length =
          ([1, 1, 2, 3] : List Nat).length ∧
        (get_precision_recall_list [1, 1, 2, 3] 4).1.getD 2 0 =
          (([1, 1, 2, 3] : List Nat).getD 2 0 : ℚ) / (2 + 1) ∧
        (get_precision_recall_list [1, 1, 2, 3] 4).2.getD 2 0 =
          (if 4 > 0 then (([1, 1, 2, 3] : List Nat).getD 2 0 : ℚ) / 4
           else 0)) :=
  ⟨by decide, precision_recall_values [1, 1, 2, 3] 4 2 (by decide)⟩

/-- C7: `Map` construction with an empty target-label list short-circuits:
it neither raises nor produces AP results or an mAP value. -/
theorem map_empty_target_labels (object_results : List DynamicObjectWithResult)
    (ground_truth_objects : List DynamicObject) (matching_mode : MatchingMode)
    (matching_threshold : ℚ) :
    mkMap object_results ground_truth_objects [] matching_mode
      matching_threshold = some MapOutcome.empty := by
  unfold mkMap
  rw [if_pos rfl]

theorem length_of_mapM {α β : Type} (f : α → Option β) :
    ∀ (l : List α) (l' : List β), l.mapM f = some l' → l'.length = l.length := by
  intro l
  induction l with
  | nil =>
    intro l' h
    rw [List.mapM_nil] at h
    cases h
    rfl
  | cons a t ih =>
    intro l' h
    rw [List.mapM_cons] at h
    cases hfa : f a with
    | none => rw [hfa] at h; cases h
    | some b =>
      rw [hfa] at h
      cases hmt : t.mapM f with
      | none => rw [hmt] at h; cases h
      | some bs =>
        rw [hmt] at h
        cases h
        simp [ih bs hmt]

/-- C5: a non-empty-label `Map` construction builds exactly the APs produced
label-by-label (each with a one-label target set) and stores their sum
divided by the number of configured labels — zero-ground-truth labels
included; in Scenario 4 (per-label APs `5/8` and `0`, the second label with
zero ground truth) the stored mAP is `5/16 = 0.3125`. -/
theorem map_mean_over_labels (object_results : List DynamicObjectWithResult)
    (ground_truth_objects : List DynamicObject) (target_labels : List Nat)
    (matching_mode : MatchingMode) (matching_threshold : ℚ)
    (aps : List ApData) (h : target_labels ≠ [])
    (haps : target_labels.mapM (fun target_label =>
        mkAp object_results ground_truth_objects [target_label] matching_mode
          matching_threshold) = some aps) :
    mkMap object_results ground_truth_objects target_labels matching_mode
        matching_threshold =
      some (MapOutcome.built
        ⟨target_labels, matching_mode, matching_threshold⟩ aps
        ((aps.map ApData.ap).sum / target_labels.length)) ∧
      aps.length = target_labels.length ∧
      ((mkMap scenario4Records scenario4GroundTruths [0, 1]
          MatchingMode.CENTERDISTANCE 1).bind
        (fun outcome => (mapValue outcome))) = some (5/16 : ℚ) := by
  refine ⟨?_, length_of_mapM _ _ _ haps, by with_unfolding_all rfl⟩
  unfold mkMap
  rw [if_neg h, haps]

/-- Witness for `map_mean_over_labels` at the Scenario-4 inputs. -/
theorem map_mean_over_labels_witness :
    ([0, 1] : List Nat) ≠ [] ∧
      ([0, 1] : List Nat).mapM (fun target_label =>
        mkAp scenario4Records scenario4GroundTruths [target_label]
          MatchingMode.CENTERDISTANCE 1) = some scenario4Aps ∧
      (mkMap scenario4Records scenario4GroundTruths [0, 1]
          MatchingMode.CENTERDISTANCE 1 =
        some (MapOutcome.built ⟨[0, 1], MatchingMode.CENTERDISTANCE, 1⟩
          scenario4Aps
          ((scenario4Aps.map ApData.ap).sum / ([0, 1] : List Nat).length)) ∧
        scenario4Aps.length = ([0, 1] : List Nat).length ∧
        ((mkMap scenario4Records scenario4GroundTruths [0, 1]
            MatchingMode.CENTERDISTANCE 1).bind
          (fun outcome => (mapValue outcome))) = some (5/16 : ℚ)) :=
  ⟨by decide, by with_unfolding_all rfl,
    map_mean_over_labels scenario4Records scenario4GroundTruths [0, 1]
      MatchingMode.CENTERDISTANCE 1 scenario4Aps (by decide)
      (by with_unfolding_all rfl)⟩

/-- C1 (refuted): with no center-distance thresholds configured the source
constructs no plane-distance mAP at all — the plane-distance loop
(`metrics.py` line 101) is guarded by `map_thresholds_center_distance` —
while the spec's per-(mode, threshold) enumeration demands one; running the
detection evaluation on such a configuration appends nothing. -/
theorem detection_pairs_plane_guard_bug :
    detectionPairs ⟨[0], [], [], [2]⟩ = [] ∧
      specConfiguredPairs ⟨[0], [], [], [2]⟩ =
        [(MatchingMode.PLANEDISTANCE, 2)] ∧
      evaluation_detection ⟨[0], [], [], [2]⟩ [] [⟨0⟩] = some [] := by
  refine ⟨by decide, by decide, by decide⟩

/-- C10: each successful `evaluate` call appends its freshly built `Map`
results to `maps` and never removes or reorders what is already there: `k`
calls on the same inputs leave the initial contents followed by `k` copies
of the per-call result block, in call order. -/
theorem evaluate_only_appends (s : MetricsScore)
    (object_results : List DynamicObjectWithResult)
    (ground_truth_objects : List DynamicObject) (new_maps : List MapOutcome)
    (k : Nat)
    (h : evaluation_detection s.config object_results ground_truth_objects =
      some new_maps) :
    s.evaluateK object_results ground_truth_objects k =
      some ⟨s.config, s.maps ++ (List.replicate k new_maps).flatten⟩ := by
  induction k generalizing s with
  | zero => simp [MetricsScore.evaluateK]
  | succ k ih =>
    unfold MetricsScore.evaluateK MetricsScore.evaluate
    rw [h]
    show (MetricsScore.mk s.config (s.maps ++ new_maps)).evaluateK
      object_results ground_truth_objects k = _
    rw [ih ⟨s.config, s.maps ++ new_maps⟩ h]
    simp [List.replicate_succ, List.append_assoc]

/-- Witness for `evaluate_only_appends`: two `evaluate` calls on a fresh
score object leave exactly two copies of the per-call result block. -/
theorem evaluate_only_appends_witness :
    evaluation_detection ⟨[0], [1], [], []⟩ [] [⟨0⟩] = some witnessNewMaps ∧
      (MetricsScore.mk ⟨[0], [1], [], []⟩ []).evaluateK [] [⟨0⟩] 2 =
        some ⟨⟨[0], [1], [], []⟩,
          [] ++ (List.replicate 2 witnessNewMaps).flatten⟩ :=
  ⟨by with_unfolding_all rfl,
    evaluate_only_appends ⟨⟨[0], [1], [], []⟩, []⟩ [] [⟨0⟩] witnessNewMaps 2
      (by with_unfolding_all rfl)⟩

/-- C6: with the restriction flag unset the TP/FP division is returned
unchanged; with it set the TP list is still unchanged while the FP list
keeps exactly the records whose matched ground truth lies in the (present)
critical set; with an absent (`None`) critical set every FP is dropped,
matched or not. -/
theorem pass_fail_critical_fp_filter
    (object_results : List DynamicObjectWithPerceptionResult)
    (critical : Option (List Nat)) (critical_list : List Nat) :
    get_tp_fp_object_results false object_results critical =
        divide_tp_fp_objects object_results ∧
      (get_tp_fp_object_results true object_results critical).1 =
        (divide_tp_fp_objects object_results).1 ∧
      (get_tp_fp_object_results true object_results (some critical_list)).2 =
        (divide_tp_fp_objects object_results).2.filter (fun r =>
          match r.ground_truth_object with
          | some g => decide (g ∈ critical_list)
          | none => false) ∧
      (get_tp_fp_object_results true object_results none).2 = [] := by
  refine ⟨rfl, rfl, ?_, ?_⟩
  case _ =>
    show List.filter _ _ = List.filter _ _
    refine List.filter_congr fun r _ => ?_
    cases r.ground_truth_object <;> rfl
  case _ =>
    show List.filter _ _ = []
    refine (List.filter_congr fun r _ => ?_).trans (List.filter_false _)
    cases r.ground_truth_object <;> rfl

theorem specWalk_ne_nil (l : List (ℚ × ℚ)) (cur : ℚ) (env : List (ℚ × ℚ))
    (h : env ≠ []) : specWalk l cur env ≠ [] := by
  induction l generalizing cur env with
  | nil => exact h
  | cons s rest ih =>
    simp only [specWalk]
    split
    case _ => exact ih _ _ (by simp)
    case _ => exact ih _ _ h

theorem envLoop_eq_specWalk (p r : List ℚ) :
    ∀ (k : Nat), k ≤ p.length → k ≤ r.length →
      ∀ (mp mr : List ℚ), mp ≠ [] → mp.length = mr.length →
      envLoop p r k (mp, mr) =
        ((specWalk (((p.zip r).take k).reverse) (mp.getLastD 0)
            (mp.zip mr)).map Prod.fst,
         (specWalk (((p.zip r).take k).reverse) (mp.getLastD 0)
            (mp.zip mr)).map Prod.snd) := by
  intro k
  induction k with
  | zero =>
    intro _ _ mp mr _ hlen
    simp only [envLoop, List.take_zero, List.reverse_nil, specWalk]
    rw [List.map_fst_zip mp mr (le_of_eq hlen),
      List.map_snd_zip mp mr (ge_of_eq hlen)]
  | succ k ih =>
    intro hk1 hk2 mp mr hne hlen
    have hkp : k < p.length := lt_of_lt_of_le (Nat.lt_succ_self k) hk1
    have hkr : k < r.length := lt_of_lt_of_le (Nat.lt_succ_self k) hk2
    have hkz : k < (p.zip r).length := by
      rw [List.length_zip]
      exact lt_min hkp hkr
    rw [List.take_succ, List.getElem?_eq_getElem hkz, Option.toList_some,
      List.reverse_append, List.reverse_singleton, List.singleton_append,
      List.getElem_zip]
    show (if p.getD k 0 > mp.getLastD 0 then
        envLoop p r k (mp ++ [p.getD k 0], mr ++ [r.getD k 0])
      else envLoop p r k (mp, mr)) = _
    rw [List.getD_eq_getElem p 0 hkp, List.getD_eq_getElem r 0 hkr]
    simp only [specWalk]
    split
    case _ h =>
      rw [ih (Nat.le_of_succ_le hk1) (Nat.le_of_succ_le hk2)
        (mp ++ [p[k]]) (mr ++ [r[k]]) (by simp) (by simp [hlen])]
      rw [List.getLastD_concat, List.zip_append hlen]
      rfl
    case _ h =>
      exact ih (Nat.le_of_succ_le hk1) (Nat.le_of_succ_le hk2) mp mr hne hlen

theorem sumPairs_cons (a b c d : ℚ) (l m : List ℚ) :
    sumPairs (a :: b :: l) (c :: d :: m) =
      a * (c - d) + sumPairs (b :: l) (d :: m) := by
  unfold sumPairs
  simp only [List.length_cons, Nat.add_sub_cancel, List.range_succ_eq_map,
    List.map_cons, List.map_map, List.sum_cons]
  congr 1

theorem sumPairs_eq_specRiemann :
    ∀ (mp mr : List ℚ), mp.length = mr.length →
      sumPairs mp mr = specRiemann (mp.zip mr) := by
  intro mp
  induction mp with
  | nil => intro mr _; simp [sumPairs, specRiemann]
  | cons a mp' ih =>
    intro mr hlen
    cases mr with
    | nil => cases hlen
    | cons c mr' =>
      cases mp' with
      | nil =>
        cases mr' with
        | nil => simp [sumPairs, specRiemann]
        | cons d m => cases hlen
      | cons b l =>
        cases mr' with
        | nil => cases hlen
        | cons d m =>
          have hlen' : (b :: l).length = (d :: m).length := by
            simpa using hlen
          rw [sumPairs_cons, ih (d :: m) hlen']
          simp [specRiemann, List.zip_cons_cons]

theorem calculate_ap_eq_spec (p r : List ℚ) (hne : p ≠ [])
    (hlen : p.length = r.length) :
    calculate_ap p r = specRiemann (specEnvelope p r) := by
  rcases List.eq_nil_or_concat p with rfl | ⟨p₀, pl, rfl⟩
  case _ => exact absurd rfl hne
  rcases List.eq_nil_or_concat r with rfl | ⟨r₀, rl, rfl⟩
  case _ => simp at hlen
  simp only [List.concat_eq_append] at *
  have hlen0 : p₀.length = r₀.length := by
    simpa using hlen
  have hzip : (p₀ ++ [pl]).zip (r₀ ++ [rl]) = p₀.zip r₀ ++ [(pl, rl)] :=
    List.zip_append hlen0
  have hzlen : (p₀.zip r₀).length = r₀.length := by
    rw [List.length_zip, hlen0, min_self]
  -- the source side
  have hsrc : calculate_ap (p₀ ++ [pl]) (r₀ ++ [rl]) =
      (fun env => sumPairs (env.1 ++ [env.1.getLastD 0]) (env.2 ++ [0]))
        (envLoop (p₀ ++ [pl]) (r₀ ++ [rl]) ((r₀ ++ [rl]).length - 1)
          ([(p₀ ++ [pl]).getLastD 0], [(r₀ ++ [rl]).getLastD 0])) := by
    unfold calculate_ap
    rw [if_neg (by simp)]
  rw [hsrc]
  have hk : (r₀ ++ [rl]).length - 1 = r₀.length := by simp
  rw [hk, List.getLastD_concat, List.getLastD_concat]
  rw [envLoop_eq_specWalk (p₀ ++ [pl]) (r₀ ++ [rl]) r₀.length
    (by simp; omega) (by simp) [pl] [rl] (by simp) (by simp)]
  rw [hzip, List.take_left' hzlen]
  show sumPairs
      ((specWalk (p₀.zip r₀).reverse pl [(pl, rl)]).map Prod.fst ++ _)
      ((specWalk (p₀.zip r₀).reverse pl [(pl, rl)]).map Prod.snd ++ [0]) = _
  -- the spec side
  have hspec : specEnvelope (p₀ ++ [pl]) (r₀ ++ [rl]) =
      specWalk (p₀.zip r₀).reverse pl [(pl, rl)] ++
        [(((specWalk (p₀.zip r₀).reverse pl [(pl, rl)]).getLastD (0, 0)).1,
          0)] := by
    unfold specEnvelope
    rw [hzip, List.getLast?_concat, List.dropLast_concat]
  rw [hspec]
  -- both sides are the Riemann sum of the same envelope
  obtain ⟨W₀, w, hW⟩ :
      ∃ W₀ w, specWalk (p₀.zip r₀).reverse pl [(pl, rl)] = W₀ ++ [w] := by
    rcases List.eq_nil_or_concat
        (specWalk (p₀.zip r₀).reverse pl [(pl, rl)]) with hnil | ⟨W₀, w, hw⟩
    case _ => exact absurd hnil (specWalk_ne_nil _ _ _ (by simp))
    case _ => exact ⟨W₀, w, by rw [hw, List.concat_eq_append]⟩
  rw [hW]
  rw [sumPairs_eq_specRiemann _ _ (by simp)]
  congr 1
  have hgl : ([pl] : List ℚ).getLastD 0 = pl := rfl
  simp only [hgl, List.zip_cons_cons, List.zip_nil_right,
    hW, List.map_append, List.map_cons, List.map_nil, List.getLastD_concat]
  rw [@List.zip_append _ _ (W₀.map Prod.fst ++ [w.1]) [w.1]
    (W₀.map Prod.snd ++ [w.2]) [0] (by simp)]
  rw [@List.zip_append _ _ (W₀.map Prod.fst) [w.1] (W₀.map Prod.snd) [w.2]
    (by simp)]
  rw [List.zip_map']
  simp

/-- C4: for every non-empty pair of parallel precision/recall lists the AP
computed by the backward index loop equals the Riemann sum over the
spec-worded interpolated-precision envelope, and on the spec's Scenario-2
lists the result is exactly `5/8 = 0.625`. -/
theorem ap_is_envelope_riemann (p r : List ℚ) (hne : p ≠ [])
    (hlen : p.length = r.length) :
    calculate_ap p r = specRiemann (specEnvelope p r) ∧
      calculate_ap [1, 1/2, 667/1000, 3/4] [1/4, 1/4, 1/2, 3/4] = 5/8 :=
  ⟨calculate_ap_eq_spec p r hne hlen, by with_unfolding_all rfl⟩

/-- Witness for `ap_is_envelope_riemann` at the Scenario-2 lists. -/
theorem ap_is_envelope_riemann_witness :
    ([1, 1/2, 667/1000, 3/4] : List ℚ) ≠ [] ∧
      ([1, 1/2, 667/1000, 3/4] : List ℚ).length =
        ([1/4, 1/4, 1/2, 3/4] : List ℚ).length ∧
      (calculate_ap [1, 1/2, 667/1000, 3/4] [1/4, 1/4, 1/2, 3/4] =
          specRiemann (specEnvelope [1, 1/2, 667/1000, 3/4]
            [1/4, 1/4, 1/2, 3/4]) ∧
        calculate_ap [1, 1/2, 667/1000, 3/4] [1/4, 1/4, 1/2, 3/4] = 5/8) :=
  ⟨by decide, by decide,
    ap_is_envelope_riemann [1, 1/2, 667/1000, 3/4] [1/4, 1/4, 1/2, 3/4]
      (by decide) (by decide)⟩

